import Mathlib

/-!
Shallow embedding of `scripts/add-swagger-examples.py`.

The script loads `docs/swagger.json`, injects static "Basic" and "Advanced"
example payloads (`x-examples`) into the three definitions
`models.BucketRequest`, `models.ProjectRequest` and `models.FolderRequest`,
and writes the document back.

JSON values are modelled by the inductive type `Json`; Python dictionaries
become insertion-ordered association lists (`List (String × Json)`), where
assigning to an existing key replaces its value in place and assigning to a
fresh key appends it at the end, exactly as CPython dictionaries behave.
Fallible Python operations (`x in c`, `c[k]`, `c[k] = v`) are embedded as
`Except`-valued functions that raise on the same inputs the interpreter
would raise on (`TypeError` for non-subscriptable / non-iterable values,
`KeyError` for a missing key).
-/

namespace SwaggerInject

/-- JSON value trees as produced by `json.load`. -/
inductive Json where
  | null : Json
  | bool (b : Bool) : Json
  | num (n : Int) : Json
  | str (s : String) : Json
  | arr (elems : List Json) : Json
  | obj (entries : List (String × Json)) : Json

/-- Dictionary lookup: value of the first entry whose key matches. -/
def lookupKv : List (String × Json) → String → Option Json
  | [], _ => none
  | (k, v) :: rest, key => if k = key then some v else lookupKv rest key

/-- Membership test of a key in a dictionary (Python `key in d`). -/
def hasKey (l : List (String × Json)) (key : String) : Bool :=
  (lookupKv l key).isSome

/-- Dictionary assignment `d[key] = val`: replace the value in place when the
key is present, append a new entry otherwise (CPython insertion order). -/
def setKv : List (String × Json) → String → Json → List (String × Json)
  | [], key, val => [(key, val)]
  | (k, v) :: rest, key, val =>
    if k = key then (key, val) :: rest else (k, v) :: setKv rest key val

/-- Membership of a string in a Python list of JSON values: `==` between a
`str` and any non-`str` JSON value is `False` in Python. -/
def strElem (xs : List Json) (key : String) : Bool :=
  xs.any fun x =>
    match x with
    | .str s => s == key
    | _ => false

/-- Occurrence of `needle` as a contiguous substring of `hay`
(Python `needle in hay` on strings). -/
def hasSubstr : List Char → List Char → Bool
  | needle, [] => needle.isEmpty
  | needle, c :: rest => needle.isPrefixOf (c :: rest) || hasSubstr needle rest

/-- Python `key in container` for a string key: key test on dicts, element
test on lists, substring test on strings, `TypeError` otherwise. -/
def pyContains (container : Json) (key : String) : Except String Bool :=
  match container with
  | .obj l => .ok (hasKey l key)
  | .arr xs => .ok (strElem xs key)
  | .str s => .ok (hasSubstr key.data s.data)
  | _ => .error "TypeError: argument is not iterable"

/-- Python `container[key]` for a string key: dict lookup (raising `KeyError`
when absent), `TypeError` on every non-dict value. -/
def pyIndex (container : Json) (key : String) : Except String Json :=
  match container with
  | .obj l =>
    match lookupKv l key with
    | some v => .ok v
    | none => .error ("KeyError: " ++ key)
  | _ => .error "TypeError: indices must be integers"

/-- Python `container[key] = val` for a string key: dict assignment,
`TypeError` on every non-dict value. -/
def pySetItem (container : Json) (key : String) (val : Json) : Except String Json :=
  match container with
  | .obj l => .ok (.obj (setKv l key val))
  | _ => .error "TypeError: object does not support item assignment"

/-- Lower-casing of a string (Python `str.lower` on ASCII input). -/
def pyLower (s : String) : String :=
  ⟨s.data.map Char.toLower⟩

/-- Replacement of every non-overlapping occurrence of `pat` (left to right)
by `repl`, with explicit fuel for structural termination; fuel at least the
length of the scanned list makes it total (Python `str.replace` with a
non-empty pattern). -/
def replFuel (pat repl : List Char) : Nat → List Char → List Char
  | _, [] => []
  | 0, l => l
  | fuel + 1, c :: rest =>
    if pat ≠ [] && pat.isPrefixOf (c :: rest) then
      repl ++ replFuel pat repl fuel ((c :: rest).drop pat.length)
    else
      c :: replFuel pat repl fuel rest

/-- Code's noun derivation `model_name.lower().replace("request", "")`:
lower-case, then delete every occurrence of `"request"`. -/
def codeNoun (name : String) : String :=
  let l := pyLower name
  ⟨replFuel "request".data [] l.data.length l.data⟩

/-- Description injected under `Basic` (f-string at line 84 of the script). -/
def basicDescription (name : String) : String :=
  "Simple " ++ codeNoun name ++ " with minimal required fields"

/-- Description injected under `Advanced` (f-string at line 89 of the script). -/
def advancedDescription (name : String) : String :=
  "Enterprise " ++ codeNoun name ++ " with all available options"

/-- Static `Basic` example for `BucketRequest` (lines 17–21 of the script). -/
def bucketBasic : Json := .obj [
  ("name", .str "my-simple-storage-bucket"),
  ("location", .str "us-central1"),
  ("storage_class", .str "STANDARD")]

/-- Static `Advanced` example for `BucketRequest` (lines 22–39 of the script). -/
def bucketAdvanced : Json := .obj [
  ("name", .str "my-enterprise-bucket-2024"),
  ("location", .str "us-central1"),
  ("storage_class", .str "STANDARD"),
  ("labels", .obj [
    ("environment", .str "production"),
    ("team", .str "platform"),
    ("cost-center", .str "engineering")]),
  ("versioning", .bool true),
  ("kms_key_name", .str "projects/velvety-byway-327718/locations/us-central1/keyRings/bucket-encryption/cryptoKeys/bucket-key"),
  ("retention_policy", .obj [
    ("retention_period_seconds", .num 7776000),
    ("is_locked", .bool false)]),
  ("uniform_bucket_level_access", .bool true),
  ("public_access_prevention", .str "enforced")]

/-- Static `Basic` example for `ProjectRequest` (lines 42–45 of the script). -/
def projectBasic : Json := .obj [
  ("project_id", .str "my-simple-project-2024"),
  ("display_name", .str "My Simple Project")]

/-- Static `Advanced` example for `ProjectRequest` (lines 46–57 of the script). -/
def projectAdvanced : Json := .obj [
  ("project_id", .str "enterprise-app-prod-2024"),
  ("display_name", .str "Enterprise Application - Production"),
  ("parent_id", .str "123456789012"),
  ("parent_type", .str "organization"),
  ("labels", .obj [
    ("environment", .str "production"),
    ("team", .str "backend"),
    ("cost-center", .str "engineering"),
    ("compliance", .str "sox")])]

/-- Static `Basic` example for `FolderRequest` (lines 60–64 of the script). -/
def folderBasic : Json := .obj [
  ("display_name", .str "Development Environment"),
  ("parent_id", .str "123456789012"),
  ("parent_type", .str "organization")]

/-- Static `Advanced` example for `FolderRequest` (lines 65–69 of the script). -/
def folderAdvanced : Json := .obj [
  ("display_name", .str "Production - North America Region"),
  ("parent_id", .str "987654321098"),
  ("parent_type", .str "folder")]

/-- The static Example Table `model_examples` in insertion order
(short model name, Basic example, Advanced example). -/
def model_examples : List (String × Json × Json) := [
  ("BucketRequest", bucketBasic, bucketAdvanced),
  ("ProjectRequest", projectBasic, projectAdvanced),
  ("FolderRequest", folderBasic, folderAdvanced)]

/-- The `x-examples` value assigned at lines 81–92 of the script. -/
def exampleBlock (name : String) (basic advanced : Json) : Json := .obj [
  ("Basic", .obj [
    ("summary", .str "Basic Example"),
    ("description", .str (basicDescription name)),
    ("value", basic)]),
  ("Advanced", .obj [
    ("summary", .str "Advanced Example"),
    ("description", .str (advancedDescription name)),
    ("value", advanced)])]

/-- One iteration of the `for model_name, examples in model_examples.items()`
loop: check `full_model_name in swagger_spec["definitions"]`, fetch the
definition, assign its `x-examples` key, and record the progress line.
The two trailing `pySetItem`s express the in-place mutation of the nested
dictionaries as explicit write-backs. -/
def processModel (acc : Json × List String) (entry : String × Json × Json) :
    Except String (Json × List String) :=
  match pyIndex acc.1 "definitions" with
  | .error e => .error e
  | .ok defsVal =>
    match pyContains defsVal ("models." ++ entry.1) with
    | .error e => .error e
    | .ok false => .ok acc
    | .ok true =>
      match pyIndex defsVal ("models." ++ entry.1) with
      | .error e => .error e
      | .ok definition =>
        match pySetItem definition "x-examples" (exampleBlock entry.1 entry.2.1 entry.2.2) with
        | .error e => .error e
        | .ok newDef =>
          match pySetItem defsVal ("models." ++ entry.1) newDef with
          | .error e => .error e
          | .ok newDefs =>
            match pySetItem acc.1 "definitions" newDefs with
            | .error e => .error e
            | .ok newDoc =>
              .ok (newDoc, acc.2 ++ ["Added examples to models." ++ entry.1])

/-- The loop over the Example Table; an exception in an iteration aborts
the whole call, as in Python. -/
def runModels : List (String × Json × Json) → Json × List String →
    Except String (Json × List String)
  | [], acc => .ok acc
  | e :: rest, acc =>
    match processModel acc e with
    | .error err => .error err
    | .ok acc2 => runModels rest acc2

/-- `add_swagger_examples` (lines 11–96 of the script): guard on
`"definitions" in swagger_spec`, then run the loop. Returns the resulting
document together with the progress lines printed on the way. -/
def add_swagger_examples (doc : Json) : Except String (Json × List String) :=
  match pyContains doc "definitions" with
  | .error e => .error e
  | .ok true => runModels model_examples (doc, [])
  | .ok false => .ok (doc, [])

/-- Document produced by `add_swagger_examples`, progress lines dropped. -/
def addExamplesDoc (doc : Json) : Except String Json :=
  match add_swagger_examples doc with
  | .error e => .error e
  | .ok acc => .ok acc.1

/-- Top-level field of a document: `some` only on JSON objects. -/
def jGet (j : Json) (k : String) : Option Json :=
  match j with
  | .obj l => lookupKv l k
  | _ => none

/-- Entry of the top-level `definitions` mapping, when that mapping exists. -/
def defsGet (j : Json) (key : String) : Option Json :=
  match jGet j "definitions" with
  | some (.obj defs) => lookupKv defs key
  | _ => none

/-- Path lookup through nested JSON objects. -/
def getPath (j : Json) : List String → Option Json
  | [] => some j
  | k :: ks =>
    match j with
    | .obj l =>
      match lookupKv l k with
      | some v => getPath v ks
      | none => none
    | _ => none

/-- Test for a JSON object. -/
def isObj : Json → Bool
  | .obj _ => true
  | _ => false

/-- Content of `docs/swagger.json` as far as the script can observe it:
either text that fails to parse as JSON, or a parsed document. -/
inductive FileContent where
  | malformed (raw : String) : FileContent
  | parsed (doc : Json) : FileContent

/-- State the run starts from: the target file (`none` when missing), and
whether the two phases of the write succeed. `openWriteOk` is the
`open(swagger_file, "w")` call, which truncates the file when it succeeds;
`writeBodyOk` is the `json.dump` call that then fills it. -/
structure World where
  swaggerFile : Option FileContent
  openWriteOk : Bool
  writeBodyOk : Bool

/-- Observable outcome of one invocation: final file state, process exit
code, and the lines printed. -/
structure RunResult where
  world : World
  exitCode : Nat
  output : List String

/-- The line printed by the `except` clause at line 117 of the script.
Exception descriptions are carried as abstract strings. -/
def errLine (e : String) : String := "Error processing swagger file: " ++ e

/-- `main` (lines 99–118 of the script): read `docs/swagger.json`, parse it,
transform it, and write it back; any exception is caught, printed, and turned
into exit code 1. Reading a missing file and parsing malformed text raise;
a failing `open(..., "w")` leaves the file untouched, while a `json.dump`
failure after a successful truncating open leaves the file truncated
(modelled as the malformed empty string). Progress lines printed before an
exception inside the transform are not tracked. -/
def main (w : World) : RunResult :=
  match w.swaggerFile with
  | none => ⟨w, 1, [errLine "FileNotFoundError: docs/swagger.json"]⟩
  | some (.malformed _) => ⟨w, 1, [errLine "JSONDecodeError: invalid JSON"]⟩
  | some (.parsed doc) =>
    match add_swagger_examples doc with
    | .error e => ⟨w, 1, [errLine e]⟩
    | .ok (out, log) =>
      if w.openWriteOk then
        if w.writeBodyOk then
          ⟨{ w with swaggerFile := some (.parsed out) }, 0,
            log ++ ["Successfully added Swagger 2.0 examples to docs/swagger.json"]⟩
        else
          ⟨{ w with swaggerFile := some (.malformed "") }, 1,
            log ++ [errLine "OSError: no space left on device"]⟩
      else
        ⟨w, 1, log ++ [errLine "PermissionError: docs/swagger.json"]⟩

/-- Success of the whole read/transform/write pipeline. -/
def pipelineOk (w : World) : Bool :=
  match w.swaggerFile with
  | some (.parsed doc) =>
    match add_swagger_examples doc with
    | .ok _ => w.openWriteOk && w.writeBodyOk
    | .error _ => false
  | _ => false

/-- Noun derivation in the spec's words: lower-case the model name and strip
a trailing `"request"` suffix. Modelled from the spec for comparison with
the code's `codeNoun`. -/
def specNoun (name : String) : String :=
  let l := pyLower name
  if "request".data.isSuffixOf l.data then
    ⟨l.data.take (l.data.length - "request".data.length)⟩
  else l

/-- The `x-examples` value the spec requires under `models.BucketRequest`:
exactly the keys `Basic` and `Advanced`, each holding exactly `summary`,
`description` and `value`, with `value` the static table entry. -/
def expectedBucketXExamples : Json := .obj [
  ("Basic", .obj [
    ("summary", .str "Basic Example"),
    ("description", .str "Simple bucket with minimal required fields"),
    ("value", bucketBasic)]),
  ("Advanced", .obj [
    ("summary", .str "Advanced Example"),
    ("description", .str "Enterprise bucket with all available options"),
    ("value", bucketAdvanced)])]

/-- The minimal end-to-end input document of the spec's scenario. -/
def c6doc : Json := .obj [
  ("definitions", .obj [
    ("models.FolderRequest", .obj [("type", .str "object")])])]

/-- Document the tool writes back for `c6doc`. -/
def c6out : Json := .obj [
  ("definitions", .obj [
    ("models.FolderRequest", .obj [
      ("type", .str "object"),
      ("x-examples", exampleBlock "FolderRequest" folderBasic folderAdvanced)])])]

/-- World holding `c6doc` in the target file, with a working disk. -/
def c6world : World := ⟨some (.parsed c6doc), true, true⟩

/-- Sample document with two of the three target definitions and an
unrelated definition, used to instantiate the universally quantified
theorems at a concrete input. -/
def sampleDoc : Json := .obj [
  ("swagger", .str "2.0"),
  ("definitions", .obj [
    ("models.BucketRequest", .obj [("type", .str "object")]),
    ("models.ProjectRequest", .obj [("type", .str "object")]),
    ("other.Thing", .obj [("type", .str "string")])])]

/-- Output of the injector on `sampleDoc`. -/
def sampleOut : Json := .obj [
  ("swagger", .str "2.0"),
  ("definitions", .obj [
    ("models.BucketRequest", .obj [
      ("type", .str "object"),
      ("x-examples", exampleBlock "BucketRequest" bucketBasic bucketAdvanced)]),
    ("models.ProjectRequest", .obj [
      ("type", .str "object"),
      ("x-examples", exampleBlock "ProjectRequest" projectBasic projectAdvanced)]),
    ("other.Thing", .obj [("type", .str "string")])])]

/-! ## Association-list lemmas -/

theorem lookupKv_setKv_self (l : List (String × Json)) (k : String) (v : Json) :
    lookupKv (setKv l k v) k = some v := by
  induction l with
  | nil => simp [setKv, lookupKv]
  | cons p rest ih =>
    obtain ⟨k', v'⟩ := p
    by_cases h : k' = k
    · simp [setKv, h, lookupKv]
    · simp [setKv, h, lookupKv, ih]

theorem lookupKv_setKv_ne (l : List (String × Json)) (k k' : String) (v : Json)
    (h : k' ≠ k) : lookupKv (setKv l k v) k' = lookupKv l k' := by
  induction l with
  | nil => simp [setKv, lookupKv, Ne.symm h]
  | cons p rest ih =>
    obtain ⟨k0, v0⟩ := p
    by_cases h0 : k0 = k
    · subst h0
      simp [setKv, lookupKv, Ne.symm h]
    · simp [setKv, h0, lookupKv, ih]

theorem setKv_eq_of_lookup (l : List (String × Json)) (k : String) (v : Json)
    (h : lookupKv l k = some v) : setKv l k v = l := by
  induction l with
  | nil => simp [lookupKv] at h
  | cons p rest ih =>
    obtain ⟨k0, v0⟩ := p
    by_cases h0 : k0 = k
    · subst h0
      simp [lookupKv] at h
      simp [setKv, h]
    · simp [lookupKv, h0] at h
      simp [setKv, h0, ih h]

theorem lookupKv_mem (l : List (String × Json)) (k : String) (v : Json)
    (h : lookupKv l k = some v) : (k, v) ∈ l := by
  induction l with
  | nil => simp [lookupKv] at h
  | cons p rest ih =>
    obtain ⟨k0, v0⟩ := p
    by_cases h0 : k0 = k
    · subst h0
      simp [lookupKv] at h
      simp [h]
    · simp [lookupKv, h0] at h
      exact List.mem_cons_of_mem _ (ih h)

theorem mem_setKv (l : List (String × Json)) (k : String) (v : Json)
    (p : String × Json) (h : p ∈ setKv l k v) : p ∈ l ∨ p = (k, v) := by
  induction l with
  | nil =>
    simp [setKv] at h
    exact Or.inr h
  | cons q rest ih =>
    obtain ⟨k0, v0⟩ := q
    by_cases h0 : k0 = k
    · subst h0
      simp [setKv] at h
      rcases h with h | h
      · exact Or.inr h
      · exact Or.inl (List.mem_cons_of_mem _ h)
    · simp [setKv, h0] at h
      rcases h with h | h
      · exact Or.inl (by simp [h])
      · rcases ih h with h2 | h2
        · exact Or.inl (List.mem_cons_of_mem _ h2)
        · exact Or.inr h2

/-! ## Characterization of the embedded Python primitives -/

theorem pyIndex_obj_some {l : List (String × Json)} {k : String} {v : Json}
    (h : lookupKv l k = some v) : pyIndex (.obj l) k = .ok v := by
  simp [pyIndex, h]

theorem pyIndex_ok_elim {j : Json} {k : String} {v : Json}
    (h : pyIndex j k = .ok v) : ∃ l, j = .obj l ∧ lookupKv l k = some v := by
  cases j with
  | obj l =>
    refine ⟨l, rfl, ?_⟩
    cases hl : lookupKv l k with
    | none => simp [pyIndex, hl] at h
    | some w => simp [pyIndex, hl] at h; rw [h]
  | null => simp [pyIndex] at h
  | bool b => simp [pyIndex] at h
  | num n => simp [pyIndex] at h
  | str s => simp [pyIndex] at h
  | arr xs => simp [pyIndex] at h

theorem pySetItem_ok_elim {j : Json} {k : String} {v r : Json}
    (h : pySetItem j k v = .ok r) : ∃ l, j = .obj l ∧ r = .obj (setKv l k v) := by
  cases j with
  | obj l => exact ⟨l, rfl, by simpa [pySetItem] using h.symm⟩
  | null => simp [pySetItem] at h
  | bool b => simp [pySetItem] at h
  | num n => simp [pySetItem] at h
  | str s => simp [pySetItem] at h
  | arr xs => simp [pySetItem] at h

theorem defsGet_some_elim {j : Json} {K : String} {v : Json}
    (h : defsGet j K = some v) :
    ∃ defs, jGet j "definitions" = some (.obj defs) ∧ lookupKv defs K = some v := by
  unfold defsGet at h
  cases hg : jGet j "definitions" with
  | none => rw [hg] at h; simp at h
  | some dv =>
    rw [hg] at h
    cases dv with
    | obj defs => exact ⟨defs, rfl, h⟩
    | null => simp at h
    | bool b => simp at h
    | num n => simp at h
    | str s => simp at h
    | arr xs => simp at h

/-! ## Characterization of one loop iteration -/

theorem processModel_hit {kvs defs d : List (String × Json)}
    (name : String) (b a : Json) (log : List String)
    (hdefs : lookupKv kvs "definitions" = some (.obj defs))
    (hfull : lookupKv defs ("models." ++ name) = some (.obj d)) :
    processModel (.obj kvs, log) (name, b, a) =
      .ok (.obj (setKv kvs "definitions" (.obj (setKv defs ("models." ++ name)
          (.obj (setKv d "x-examples" (exampleBlock name b a)))))),
        log ++ ["Added examples to models." ++ name]) := by
  simp [processModel, pyIndex, pyContains, pySetItem, hasKey, hdefs, hfull]

theorem processModel_miss {kvs defs : List (String × Json)} {log : List String}
    {name : String} {b a : Json}
    (hdefs : lookupKv kvs "definitions" = some (.obj defs))
    (hfull : lookupKv defs ("models." ++ name) = none) :
    processModel (.obj kvs, log) (name, b, a) = .ok (.obj kvs, log) := by
  simp [processModel, pyIndex, pyContains, hasKey, hdefs, hfull]

theorem processModel_ok_cases {acc acc2 : Json × List String} {name : String} {b a : Json}
    (h : processModel acc (name, b, a) = .ok acc2) :
    (acc2 = acc ∧ ∃ dv, pyIndex acc.1 "definitions" = .ok dv ∧
        pyContains dv ("models." ++ name) = .ok false) ∨
    (∃ kvs defs d, acc.1 = .obj kvs ∧
        lookupKv kvs "definitions" = some (.obj defs) ∧
        lookupKv defs ("models." ++ name) = some (.obj d) ∧
        acc2.1 = .obj (setKv kvs "definitions" (.obj (setKv defs ("models." ++ name)
          (.obj (setKv d "x-examples" (exampleBlock name b a)))))) ∧
        acc2.2 = acc.2 ++ ["Added examples to models." ++ name]) := by
  unfold processModel at h
  split at h
  · exact absurd h (by simp)
  · rename_i defsVal hIdx
    split at h
    · exact absurd h (by simp)
    · rename_i hC
      replace h := Except.ok.inj h
      exact Or.inl ⟨h.symm, defsVal, hIdx, hC⟩
    · rename_i hC
      split at h
      · exact absurd h (by simp)
      · rename_i definition hIdx2
        split at h
        · exact absurd h (by simp)
        · rename_i newDef hSet1
          split at h
          · exact absurd h (by simp)
          · rename_i newDefs hSet2
            split at h
            · exact absurd h (by simp)
            · rename_i newDoc hSet3
              replace h := Except.ok.inj h
              obtain ⟨kvs, hkvs, hlook⟩ := pyIndex_ok_elim hIdx
              obtain ⟨defs, hdefsObj, hlook2⟩ := pyIndex_ok_elim hIdx2
              subst hdefsObj
              obtain ⟨d, hdObj, hnewDef⟩ := pySetItem_ok_elim hSet1
              subst hdObj
              obtain ⟨defs2, hdefs2, hnewDefs⟩ := pySetItem_ok_elim hSet2
              obtain ⟨kvs2, hkvs2, hnewDoc⟩ := pySetItem_ok_elim hSet3
              rw [hkvs] at hkvs2
              replace hkvs2 := Json.obj.inj hkvs2
              replace hdefs2 := Json.obj.inj hdefs2
              subst hkvs2
              subst hdefs2
              refine Or.inr ⟨kvs, defs, d, hkvs, hlook, hlook2, ?_, ?_⟩
              · rw [← h]
                simp [hnewDoc, hnewDefs, hnewDef]
              · rw [← h]

theorem processModel_jGet_frame {acc acc2 : Json × List String} {name : String}
    {b a : Json} (h : processModel acc (name, b, a) = .ok acc2)
    (k : String) (hk : k ≠ "definitions") : jGet acc2.1 k = jGet acc.1 k := by
  rcases processModel_ok_cases h with ⟨rfl, -⟩ | ⟨kvs, defs, d, h1, h2, h3, h4, h5⟩
  · rfl
  · rw [h1, h4]
    simp [jGet, lookupKv_setKv_ne _ _ _ _ hk]

theorem processModel_defsGet_frame {acc acc2 : Json × List String} {name : String}
    {b a : Json} (h : processModel acc (name, b, a) = .ok acc2)
    (K : String) (hK : K ≠ "models." ++ name) : defsGet acc2.1 K = defsGet acc.1 K := by
  rcases processModel_ok_cases h with ⟨rfl, -⟩ | ⟨kvs, defs, d, h1, h2, h3, h4, h5⟩
  · rfl
  · rw [h1, h4]
    simp [defsGet, jGet, lookupKv_setKv_self, lookupKv_setKv_ne _ _ _ _ hK, h2]

theorem processModel_defsGet_target {acc acc2 : Json × List String} {name : String}
    {b a : Json} (h : processModel acc (name, b, a) = .ok acc2)
    {d : List (String × Json)}
    (hd : defsGet acc.1 ("models." ++ name) = some (.obj d)) :
    defsGet acc2.1 ("models." ++ name) =
      some (.obj (setKv d "x-examples" (exampleBlock name b a))) := by
  obtain ⟨defs0, hg, hl⟩ := defsGet_some_elim hd
  rcases processModel_ok_cases h with ⟨rfl, dv, hIdx, hC⟩ | ⟨kvs, defs, d', h1, h2, h3, h4, h5⟩
  · obtain ⟨kvs, hkvs, hlook⟩ := pyIndex_ok_elim hIdx
    rw [hkvs] at hg
    simp [jGet] at hg
    rw [hlook] at hg
    replace hg := Option.some.inj hg
    subst hg
    simp [pyContains, hasKey, hl] at hC
  · rw [h1] at hg
    simp [jGet] at hg
    rw [h2] at hg
    replace hg := Json.obj.inj (Option.some.inj hg)
    subst hg
    rw [h3] at hl
    replace hl := Json.obj.inj (Option.some.inj hl)
    subst hl
    rw [h4]
    simp [defsGet, jGet, lookupKv_setKv_self]

/-! ## Characterization of the loop and the injector -/

theorem runModels_cons_ok {e : String × Json × Json} {es : List (String × Json × Json)}
    {acc res : Json × List String} (h : runModels (e :: es) acc = .ok res) :
    ∃ acc2, processModel acc e = .ok acc2 ∧ runModels es acc2 = .ok res := by
  unfold runModels at h
  split at h
  · exact absurd h (by simp)
  · rename_i acc2 hstep
    exact ⟨acc2, hstep, h⟩

theorem add_ok_elim {doc out : Json} {log : List String}
    (h : add_swagger_examples doc = .ok (out, log)) :
    (pyContains doc "definitions" = .ok false ∧ out = doc ∧ log = []) ∨
    (pyContains doc "definitions" = .ok true ∧
      runModels model_examples (doc, []) = .ok (out, log)) := by
  unfold add_swagger_examples at h
  split at h
  · exact absurd h (by simp)
  · rename_i hC
    exact Or.inr ⟨hC, h⟩
  · rename_i hC
    replace h := Except.ok.inj h
    exact Or.inl ⟨hC, congrArg Prod.fst h.symm, congrArg Prod.snd h.symm⟩

theorem addExamplesDoc_ok_elim {doc out : Json}
    (h : addExamplesDoc doc = .ok out) :
    ∃ log, add_swagger_examples doc = .ok (out, log) := by
  unfold addExamplesDoc at h
  split at h
  · exact absurd h (by simp)
  · rename_i acc hacc
    exact ⟨acc.2, by rw [hacc, ← Except.ok.inj h]⟩

theorem runModels_cons_ok_intro {e : String × Json × Json}
    {es : List (String × Json × Json)} {acc acc2 : Json × List String}
    {res : Except String (Json × List String)}
    (h1 : processModel acc e = .ok acc2) (h2 : runModels es acc2 = res) :
    runModels (e :: es) acc = res := by
  unfold runModels
  rw [h1]
  exact h2

theorem setKv_fixed_val (l : List (String × Json)) (k : String) (v w : Json)
    (hfix : setKv l k w = l) (h : lookupKv l k = some v) : w = v := by
  have := lookupKv_setKv_self l k w
  rw [hfix, h] at this
  exact (Option.some.inj this).symm

theorem processModel_skip {kvs : List (String × Json)} {dv : Json} {log : List String}
    {name : String} {b a : Json}
    (hdefs : lookupKv kvs "definitions" = some dv)
    (hC : pyContains dv ("models." ++ name) = .ok false) :
    processModel (.obj kvs, log) (name, b, a) = .ok (.obj kvs, log) := by
  simp [processModel, pyIndex, hdefs, hC]

theorem processModel_settle {acc acc2 : Json × List String} {name : String} {b a : Json}
    (h : processModel acc (name, b, a) = .ok acc2) :
    ∀ log, ∃ tail, processModel (acc2.1, log) (name, b, a) = .ok (acc2.1, log ++ tail) := by
  rcases processModel_ok_cases h with ⟨rfl, dv, hIdx, hC⟩ | ⟨kvs, defs, d, h1, h2, h3, h4, h5⟩
  · intro log
    refine ⟨[], ?_⟩
    obtain ⟨kvs, hkvs, hlook⟩ := pyIndex_ok_elim hIdx
    rw [hkvs]
    simpa using processModel_skip hlook hC
  · intro log
    refine ⟨["Added examples to models." ++ name], ?_⟩
    rw [h4]
    have hl1 : lookupKv (setKv kvs "definitions"
        (.obj (setKv defs ("models." ++ name)
          (.obj (setKv d "x-examples" (exampleBlock name b a)))))) "definitions" =
        some (.obj (setKv defs ("models." ++ name)
          (.obj (setKv d "x-examples" (exampleBlock name b a))))) :=
      lookupKv_setKv_self _ _ _
    have hl2 : lookupKv (setKv defs ("models." ++ name)
        (.obj (setKv d "x-examples" (exampleBlock name b a)))) ("models." ++ name) =
        some (.obj (setKv d "x-examples" (exampleBlock name b a))) :=
      lookupKv_setKv_self _ _ _
    have hrun := processModel_hit name b a log hl1 hl2
    rw [setKv_eq_of_lookup _ _ _ (lookupKv_setKv_self d "x-examples" (exampleBlock name b a))]
      at hrun
    rw [setKv_eq_of_lookup _ _ _ hl2] at hrun
    rw [setKv_eq_of_lookup _ _ _ hl1] at hrun
    exact hrun

theorem processModel_settle_preserved {acc acc2 : Json × List String}
    {name nm2 : String} {b a b2 a2 : Json}
    (hs : ∀ log, ∃ tail, processModel (acc.1, log) (name, b, a) = .ok (acc.1, log ++ tail))
    (h : processModel acc (nm2, b2, a2) = .ok acc2)
    (hne : ("models." ++ name : String) ≠ "models." ++ nm2) :
    ∀ log, ∃ tail, processModel (acc2.1, log) (name, b, a) = .ok (acc2.1, log ++ tail) := by
  rcases processModel_ok_cases h with ⟨rfl, -⟩ | ⟨kvs, defs, d, h1, h2, h3, h4, h5⟩
  · exact hs
  · intro log
    obtain ⟨tail, ht⟩ := hs log
    rcases processModel_ok_cases ht with ⟨-, dv, hIdx, hC⟩ | ⟨kvs0, defs0, d0, g1, g2, g3, g4, g5⟩
    · -- the settled step was a miss; it stays a miss after the other model is patched
      obtain ⟨kvsx, hkx, hlx⟩ := pyIndex_ok_elim hIdx
      rw [h1] at hkx
      replace hkx := Json.obj.inj hkx
      subst hkx
      rw [h2] at hlx
      replace hlx := Option.some.inj hlx
      subst hlx
      have hC2 : lookupKv defs ("models." ++ name) = none := by
        cases hlk : lookupKv defs ("models." ++ name) with
        | none => rfl
        | some v => simp [pyContains, hasKey, hlk] at hC
      refine ⟨[], ?_⟩
      rw [h4]
      have hmiss : lookupKv (setKv defs ("models." ++ nm2)
          (.obj (setKv d "x-examples" (exampleBlock nm2 b2 a2)))) ("models." ++ name) = none := by
        rw [lookupKv_setKv_ne _ _ _ _ hne]
        exact hC2
      simpa using processModel_skip (lookupKv_setKv_self _ _ _)
        (by simp [pyContains, hasKey, hmiss])
    · -- the settled step was a hit that left the document fixed
      rw [h1] at g1
      replace g1 := Json.obj.inj g1
      subst g1
      rw [h2] at g2
      replace g2 := Json.obj.inj (Option.some.inj g2)
      subst g2
      -- the fixed-point equation of the settled step
      have gfix := g4
      simp only at gfix
      rw [h1] at gfix
      replace gfix := Json.obj.inj gfix
      have hfix1 : (Json.obj (setKv defs ("models." ++ name)
          (.obj (setKv d0 "x-examples" (exampleBlock name b a)))) : Json) = Json.obj defs :=
        setKv_fixed_val kvs "definitions" _ _ gfix.symm h2
      replace hfix1 := Json.obj.inj hfix1
      have hfix2 : (Json.obj (setKv d0 "x-examples" (exampleBlock name b a)) : Json) =
          Json.obj d0 :=
        setKv_fixed_val defs ("models." ++ name) _ _ hfix1 g3
      replace hfix2 := Json.obj.inj hfix2
      -- now run the settled step on the updated document
      refine ⟨["Added examples to models." ++ name], ?_⟩
      rw [h4]
      have hl1 : lookupKv (setKv kvs "definitions"
          (.obj (setKv defs ("models." ++ nm2)
            (.obj (setKv d "x-examples" (exampleBlock nm2 b2 a2)))))) "definitions" =
          some (.obj (setKv defs ("models." ++ nm2)
            (.obj (setKv d "x-examples" (exampleBlock nm2 b2 a2))))) :=
        lookupKv_setKv_self _ _ _
      have hl2 : lookupKv (setKv defs ("models." ++ nm2)
          (.obj (setKv d "x-examples" (exampleBlock nm2 b2 a2)))) ("models." ++ name) =
          some (.obj d0) := by
        rw [lookupKv_setKv_ne _ _ _ _ hne]
        exact g3
      have hrun := processModel_hit name b a log hl1 hl2
      rw [hfix2] at hrun
      rw [setKv_eq_of_lookup _ _ _ hl2] at hrun
      rw [setKv_eq_of_lookup _ _ _ hl1] at hrun
      exact hrun

theorem processModel_keeps_defs_key {acc acc2 : Json × List String} {name : String}
    {b a : Json} (h : processModel acc (name, b, a) = .ok acc2)
    {kvs : List (String × Json)} (hk : acc.1 = Json.obj kvs)
    (hkey : hasKey kvs "definitions" = true) :
    ∃ kvs2, acc2.1 = Json.obj kvs2 ∧ hasKey kvs2 "definitions" = true := by
  rcases processModel_ok_cases h with ⟨rfl, -⟩ | ⟨kvs0, defs0, d0, g1, g2, g3, g4, g5⟩
  · exact ⟨kvs, hk, hkey⟩
  · refine ⟨_, g4, ?_⟩
    simp [hasKey, lookupKv_setKv_self]

theorem add_ok_fixed {doc out : Json} {log : List String}
    (h : add_swagger_examples doc = .ok (out, log)) :
    ∃ log2, add_swagger_examples out = .ok (out, log2) := by
  rcases add_ok_elim h with ⟨hC, rfl, rfl⟩ | ⟨hC, hrun⟩
  · refine ⟨[], ?_⟩
    unfold add_swagger_examples
    rw [hC]
  · rw [show model_examples = [("BucketRequest", bucketBasic, bucketAdvanced),
      ("ProjectRequest", projectBasic, projectAdvanced),
      ("FolderRequest", folderBasic, folderAdvanced)] from rfl] at hrun
    obtain ⟨a1, h1, hrun1⟩ := runModels_cons_ok hrun
    obtain ⟨a2, h2, hrun2⟩ := runModels_cons_ok hrun1
    obtain ⟨a3, h3, hrun3⟩ := runModels_cons_ok hrun2
    have ha3 : a3 = (out, log) := by simpa [runModels] using hrun3
    -- the original document is an object carrying the definitions key
    have hobj : ∃ kvs, doc = Json.obj kvs ∧ hasKey kvs "definitions" = true := by
      rcases processModel_ok_cases h1 with ⟨-, dv, hIdx, -⟩ | ⟨kvs, defs, d, g1, g2, -, -, -⟩
      · obtain ⟨kvs, hkvs, hlook⟩ := pyIndex_ok_elim hIdx
        exact ⟨kvs, hkvs, by simp [hasKey, hlook]⟩
      · exact ⟨kvs, g1, by simp [hasKey, g2]⟩
    obtain ⟨kvs, hkvs, hkey⟩ := hobj
    obtain ⟨k1, hk1, hkey1⟩ := processModel_keeps_defs_key h1 (by simpa using hkvs) hkey
    obtain ⟨k2, hk2, hkey2⟩ := processModel_keeps_defs_key h2 hk1 hkey1
    obtain ⟨k3, hk3, hkey3⟩ := processModel_keeps_defs_key h3 hk2 hkey2
    rw [ha3] at hk3
    have hCout : pyContains out "definitions" = .ok true := by
      rw [show out = (out, log).1 from rfl, hk3]
      simp [pyContains, hkey3]
    -- each of the three iterations is now settled on the final document
    have s1 := processModel_settle h1
    have s1b := processModel_settle_preserved s1 h2 (by decide)
    have s1c := processModel_settle_preserved s1b h3 (by decide)
    have s2 := processModel_settle h2
    have s2b := processModel_settle_preserved s2 h3 (by decide)
    have s3 := processModel_settle h3
    rw [ha3] at s1c s2b s3
    obtain ⟨t1, ht1⟩ := s1c []
    obtain ⟨t2, ht2⟩ := s2b ([] ++ t1)
    obtain ⟨t3, ht3⟩ := s3 (([] ++ t1) ++ t2)
    refine ⟨(([] ++ t1) ++ t2) ++ t3, ?_⟩
    unfold add_swagger_examples
    rw [hCout]
    exact runModels_cons_ok_intro ht1 (runModels_cons_ok_intro ht2
      (runModels_cons_ok_intro ht3 rfl))

theorem processModel_entry_preserved {acc acc2 : Json × List String} {name : String}
    {b a : Json} (h : processModel acc (name, b, a) = .ok acc2)
    (K : String) {dl : List (String × Json)}
    (hd : defsGet acc.1 K = some (.obj dl)) :
    ∃ dl2, defsGet acc2.1 K = some (.obj dl2) ∧
      ∀ k, k ≠ "x-examples" → lookupKv dl2 k = lookupKv dl k := by
  by_cases hK : K = "models." ++ name
  · subst hK
    exact ⟨_, processModel_defsGet_target h hd,
      fun k hk => lookupKv_setKv_ne _ _ _ _ hk⟩
  · rw [processModel_defsGet_frame h K hK, hd]
    exact ⟨dl, rfl, fun _ _ => rfl⟩

theorem processModel_total_inv (acc : Json × List String) {name : String} {b a : Json}
    {kvs defs : List (String × Json)}
    (hk : acc.1 = Json.obj kvs)
    (hdefs : lookupKv kvs "definitions" = some (Json.obj defs))
    (hall : ∀ p ∈ defs, isObj p.2 = true) :
    ∃ kvs2 defs2 l2, processModel acc (name, b, a) = .ok (Json.obj kvs2, l2) ∧
      lookupKv kvs2 "definitions" = some (Json.obj defs2) ∧
      ∀ p ∈ defs2, isObj p.2 = true := by
  have hacc : acc = (Json.obj kvs, acc.2) := by rw [← hk]
  cases hl : lookupKv defs ("models." ++ name) with
  | none =>
    refine ⟨kvs, defs, acc.2, ?_, hdefs, hall⟩
    rw [hacc]
    exact processModel_miss hdefs hl
  | some v =>
    have hv := hall _ (lookupKv_mem _ _ _ hl)
    cases v with
    | obj d =>
      refine ⟨setKv kvs "definitions" (.obj (setKv defs ("models." ++ name)
          (.obj (setKv d "x-examples" (exampleBlock name b a))))),
        setKv defs ("models." ++ name) (.obj (setKv d "x-examples" (exampleBlock name b a))),
        acc.2 ++ ["Added examples to models." ++ name], ?_,
        lookupKv_setKv_self _ _ _, ?_⟩
      · rw [hacc]
        exact processModel_hit name b a acc.2 hdefs hl
      · intro p hp
        rcases mem_setKv _ _ _ _ hp with hp2 | hp2
        · exact hall _ hp2
        · rw [hp2]
          rfl
    | null => simp [isObj] at hv
    | bool b2 => simp [isObj] at hv
    | num n => simp [isObj] at hv
    | str s => simp [isObj] at hv
    | arr xs => simp [isObj] at hv

/-! ## Claims -/

/-- Claim C1: for every document whose top-level definitions mapping contains
the key `models.BucketRequest` with a mapping as value, the injector's output
has, under that definition, an `x-examples` field with exactly the two keys
`Basic` and `Advanced`, each holding exactly `summary`, `description` and
`value`, and `value` deep-equals the static Example Table entry for
`BucketRequest` at the corresponding tier. -/
theorem add_injects_bucket_examples :
    ∀ (doc out : Json) (kvs defs bdef : List (String × Json)),
      doc = Json.obj kvs →
      lookupKv kvs "definitions" = some (Json.obj defs) →
      lookupKv defs "models.BucketRequest" = some (Json.obj bdef) →
      addExamplesDoc doc = .ok out →
      ∃ bdef2, defsGet out "models.BucketRequest" = some (Json.obj bdef2) ∧
        lookupKv bdef2 "x-examples" = some expectedBucketXExamples := by
  intro doc out kvs defs bdef hdoc hdefs hbucket h
  subst hdoc
  obtain ⟨log, hA⟩ := addExamplesDoc_ok_elim h
  rcases add_ok_elim hA with ⟨hC, -, -⟩ | ⟨-, hrun⟩
  · simp [pyContains, hasKey, hdefs] at hC
  · rw [show model_examples = [("BucketRequest", bucketBasic, bucketAdvanced),
      ("ProjectRequest", projectBasic, projectAdvanced),
      ("FolderRequest", folderBasic, folderAdvanced)] from rfl] at hrun
    obtain ⟨a1, h1, hrun1⟩ := runModels_cons_ok hrun
    obtain ⟨a2, h2, hrun2⟩ := runModels_cons_ok hrun1
    obtain ⟨a3, h3, hrun3⟩ := runModels_cons_ok hrun2
    have ha3 : a3 = (out, log) := by simpa [runModels] using hrun3
    have hd0 : defsGet (Json.obj kvs) "models.BucketRequest" = some (Json.obj bdef) := by
      simp [defsGet, jGet, hdefs, hbucket]
    have ht1 := processModel_defsGet_target h1 hd0
    have ht2 := processModel_defsGet_frame h2 "models.BucketRequest" (by decide)
    have ht3 := processModel_defsGet_frame h3 "models.BucketRequest" (by decide)
    have hfin : defsGet a3.1 "models.BucketRequest" =
        some (.obj (setKv bdef "x-examples"
          (exampleBlock "BucketRequest" bucketBasic bucketAdvanced))) := by
      rw [ht3, ht2]
      exact ht1
    rw [ha3] at hfin
    refine ⟨_, hfin, ?_⟩
    rw [lookupKv_setKv_self]
    exact congrArg some (by rfl)

/-- Witness for C1 at the concrete document `sampleDoc`. -/
theorem add_injects_bucket_examples_witness :
    ∃ bdef2, defsGet sampleOut "models.BucketRequest" = some (Json.obj bdef2) ∧
      lookupKv bdef2 "x-examples" = some expectedBucketXExamples :=
  add_injects_bucket_examples sampleDoc sampleOut
    [("swagger", .str "2.0"),
     ("definitions", .obj [
       ("models.BucketRequest", .obj [("type", .str "object")]),
       ("models.ProjectRequest", .obj [("type", .str "object")]),
       ("other.Thing", .obj [("type", .str "string")])])]
    [("models.BucketRequest", .obj [("type", .str "object")]),
     ("models.ProjectRequest", .obj [("type", .str "object")]),
     ("other.Thing", .obj [("type", .str "string")])]
    [("type", .str "object")] rfl rfl rfl rfl

/-- Claim C2: every key present in a definition before the injector runs is
still present with an unchanged value afterwards; the only key the injector
ever adds or overwrites in a definition is `x-examples`. -/
theorem add_preserves_definition_keys :
    ∀ (doc out : Json) (K : String) (dl : List (String × Json)),
      addExamplesDoc doc = .ok out →
      defsGet doc K = some (.obj dl) →
      ∃ dl2, defsGet out K = some (.obj dl2) ∧
        ∀ k, k ≠ "x-examples" → lookupKv dl2 k = lookupKv dl k := by
  intro doc out K dl h hd
  obtain ⟨log, hA⟩ := addExamplesDoc_ok_elim h
  rcases add_ok_elim hA with ⟨-, rfl, -⟩ | ⟨-, hrun⟩
  · exact ⟨dl, hd, fun _ _ => rfl⟩
  · rw [show model_examples = [("BucketRequest", bucketBasic, bucketAdvanced),
      ("ProjectRequest", projectBasic, projectAdvanced),
      ("FolderRequest", folderBasic, folderAdvanced)] from rfl] at hrun
    obtain ⟨a1, h1, hrun1⟩ := runModels_cons_ok hrun
    obtain ⟨a2, h2, hrun2⟩ := runModels_cons_ok hrun1
    obtain ⟨a3, h3, hrun3⟩ := runModels_cons_ok hrun2
    have ha3 : a3 = (out, log) := by simpa [runModels] using hrun3
    obtain ⟨d1, hd1, hp1⟩ := processModel_entry_preserved h1 K hd
    obtain ⟨d2, hd2, hp2⟩ := processModel_entry_preserved h2 K hd1
    obtain ⟨d3, hd3, hp3⟩ := processModel_entry_preserved h3 K hd2
    rw [ha3] at hd3
    exact ⟨d3, hd3, fun k hk => ((hp3 k hk).trans (hp2 k hk)).trans (hp1 k hk)⟩

/-- Witness for C2 at the concrete document `sampleDoc` and the definition
`models.BucketRequest`. -/
theorem add_preserves_definition_keys_witness :
    ∃ dl2, defsGet sampleOut "models.BucketRequest" = some (.obj dl2) ∧
      ∀ k, k ≠ "x-examples" →
        lookupKv dl2 k = lookupKv [("type", Json.str "object")] k :=
  add_preserves_definition_keys sampleDoc sampleOut "models.BucketRequest"
    [("type", Json.str "object")] rfl rfl

/-- Claim C3: the injector is idempotent: applying it twice in succession
yields the document obtained by applying it once. -/
theorem add_idempotent :
    ∀ doc : Json, Except.bind (addExamplesDoc doc) addExamplesDoc = addExamplesDoc doc := by
  intro doc
  cases h : addExamplesDoc doc with
  | error e => rfl
  | ok out =>
    obtain ⟨log, hA⟩ := addExamplesDoc_ok_elim h
    obtain ⟨log2, hfix⟩ := add_ok_fixed hA
    show addExamplesDoc out = .ok out
    unfold addExamplesDoc
    rw [hfix]

/-- Claim C4, counterexample: the scalar document `5` has no top-level
definitions field, yet the injector raises (Python's `in` on an integer is a
`TypeError`) and the run exits 1, contradicting "returns the document
unchanged … the run still succeeds" for every such document. -/
theorem add_errors_on_scalar_document :
    jGet (Json.num 5) "definitions" = none ∧
    add_swagger_examples (Json.num 5) = .error "TypeError: argument is not iterable" ∧
    (main ⟨some (.parsed (Json.num 5)), true, true⟩).exitCode = 1 :=
  ⟨rfl, rfl, rfl⟩

/-- Claim C4, amended: for every document that is a JSON object lacking the
`definitions` key, the injector returns the document unchanged, prints
nothing, and the run succeeds. -/
theorem add_skips_when_definitions_absent :
    ∀ kvs : List (String × Json), lookupKv kvs "definitions" = none →
      add_swagger_examples (Json.obj kvs) = .ok (Json.obj kvs, []) ∧
      (main ⟨some (.parsed (Json.obj kvs)), true, true⟩).exitCode = 0 := by
  intro kvs h
  have h1 : add_swagger_examples (Json.obj kvs) = .ok (Json.obj kvs, []) := by
    simp [add_swagger_examples, pyContains, hasKey, h]
  exact ⟨h1, by simp [main, h1]⟩

/-- Witness for the amended C4 at a one-field object document. -/
theorem add_skips_when_definitions_absent_witness :
    add_swagger_examples (Json.obj [("swagger", Json.str "2.0")]) =
      .ok (Json.obj [("swagger", Json.str "2.0")], []) ∧
    (main ⟨some (.parsed (Json.obj [("swagger", Json.str "2.0")])), true, true⟩).exitCode = 0 :=
  add_skips_when_definitions_absent [("swagger", Json.str "2.0")] rfl

/-- Claim C5: for every model name in the Example Table the injected
description strings equal the fixed templates applied to the lower-cased
name with its trailing "request" suffix stripped; in particular the two
`ProjectRequest` descriptions are the literal strings of the spec. -/
theorem descriptions_follow_template :
    (∀ e ∈ model_examples,
      basicDescription e.1 = "Simple " ++ specNoun e.1 ++ " with minimal required fields" ∧
      advancedDescription e.1 = "Enterprise " ++ specNoun e.1 ++ " with all available options") ∧
    basicDescription "ProjectRequest" = "Simple project with minimal required fields" ∧
    advancedDescription "ProjectRequest" = "Enterprise project with all available options" := by
  refine ⟨?_, rfl, rfl⟩
  intro e he
  simp only [model_examples, List.mem_cons, List.mem_singleton] at he
  rcases he with rfl | rfl | rfl | h
  · exact ⟨rfl, rfl⟩
  · exact ⟨rfl, rfl⟩
  · exact ⟨rfl, rfl⟩
  · exact absurd h (List.not_mem_nil e)

/-- Witness for C5 at the table entry for `ProjectRequest`. -/
theorem descriptions_follow_template_witness :
    basicDescription "ProjectRequest" =
      "Simple " ++ specNoun "ProjectRequest" ++ " with minimal required fields" ∧
    advancedDescription "ProjectRequest" =
      "Enterprise " ++ specNoun "ProjectRequest" ++ " with all available options" :=
  descriptions_follow_template.1 ("ProjectRequest", projectBasic, projectAdvanced)
    (List.Mem.tail _ (List.Mem.head _))

/-- Claim C6: on the minimal document holding only
`models.FolderRequest : {type: object}`, the tool succeeds, `type` is still
`"object"`, and the Advanced example's `display_name` is
`"Production - North America Region"`. -/
theorem tool_on_minimal_folder_document :
    (main c6world).exitCode = 0 ∧
    (main c6world).world.swaggerFile = some (.parsed c6out) ∧
    getPath c6out ["definitions", "models.FolderRequest", "type"] =
      some (.str "object") ∧
    getPath c6out ["definitions", "models.FolderRequest", "x-examples",
      "Advanced", "value", "display_name"] =
      some (.str "Production - North America Region") :=
  ⟨rfl, rfl, rfl, rfl⟩

/-- Claim C7: the process exits 0 exactly when the read/transform/write
pipeline succeeds and 1 on any exception in it, after printing a line that
surfaces the exception's description. -/
theorem main_exit_code_and_error_reporting :
    ∀ w : World, (main w).exitCode = (if pipelineOk w then 0 else 1) ∧
      (pipelineOk w = false → ∃ e, errLine e ∈ (main w).output) := by
  intro w
  obtain ⟨file, ow, wb⟩ := w
  cases file with
  | none =>
    exact ⟨rfl, fun _ => ⟨"FileNotFoundError: docs/swagger.json", by simp [main]⟩⟩
  | some fc =>
    cases fc with
    | malformed raw =>
      exact ⟨rfl, fun _ => ⟨"JSONDecodeError: invalid JSON", by simp [main]⟩⟩
    | parsed doc =>
      cases hA : add_swagger_examples doc with
      | error e =>
        refine ⟨by simp [main, pipelineOk, hA], fun _ => ⟨e, by simp [main, hA]⟩⟩
      | ok acc =>
        obtain ⟨out, log⟩ := acc
        refine ⟨?_, ?_⟩
        · cases ow <;> cases wb <;> simp [main, pipelineOk, hA]
        · intro hpo
          cases ow with
          | false =>
            exact ⟨"PermissionError: docs/swagger.json", by simp [main, hA]⟩
          | true =>
            cases wb with
            | false =>
              exact ⟨"OSError: no space left on device", by simp [main, hA]⟩
            | true => simp [pipelineOk, hA] at hpo

/-- Witness for C7 at the world with a missing target file: the pipeline
fails, and an error line is printed. -/
theorem main_exit_code_and_error_reporting_witness :
    ∃ e, errLine e ∈ (main ⟨none, true, true⟩).output :=
  (main_exit_code_and_error_reporting ⟨none, true, true⟩).2 rfl

/-- Claim C8, counterexample: with a readable, well-formed file and a write
that fails after the truncating open, the run exits 1 but the target file no
longer holds its previous content, contradicting "whenever the tool exits
with a non-zero status … the content of the target file is exactly what it
was before the run". -/
theorem write_failure_clobbers_file :
    (main ⟨some (.parsed (Json.obj [("swagger", Json.str "2.0")])), true, false⟩).exitCode = 1 ∧
    (main ⟨some (.parsed (Json.obj [("swagger", Json.str "2.0")])), true, false⟩).world.swaggerFile ≠
      some (.parsed (Json.obj [("swagger", Json.str "2.0")])) := by
  refine ⟨rfl, ?_⟩
  have hred : (main ⟨some (.parsed (Json.obj [("swagger", Json.str "2.0")])), true,
      false⟩).world.swaggerFile = some (.malformed "") := rfl
  rw [hred]
  intro h
  exact FileContent.noConfusion (Option.some.inj h)

/-- Claim C8, amended: every failure before the write phase (missing file,
malformed JSON, transform exception, failed open) leaves the file exactly as
it was; a failure of the write itself, after the truncating open, may leave
the file truncated; on success the file is wholly replaced by the
transformed document. -/
theorem main_preserves_file_before_write :
    (∀ w : World, (main w).exitCode = 1 →
      (main w).world = w ∨
      (w.openWriteOk = true ∧ w.writeBodyOk = false ∧
        (main w).world.swaggerFile = some (.malformed ""))) ∧
    (∀ (w : World) (doc out : Json) (log : List String),
      w.swaggerFile = some (.parsed doc) →
      add_swagger_examples doc = .ok (out, log) →
      w.openWriteOk = true → w.writeBodyOk = true →
      (main w).world.swaggerFile = some (.parsed out)) := by
  constructor
  · intro w h
    obtain ⟨file, ow, wb⟩ := w
    cases file with
    | none => exact Or.inl rfl
    | some fc =>
      cases fc with
      | malformed raw => exact Or.inl rfl
      | parsed doc =>
        cases hA : add_swagger_examples doc with
        | error e => exact Or.inl (by simp [main, hA])
        | ok acc =>
          obtain ⟨out, log⟩ := acc
          cases ow with
          | false => exact Or.inl (by simp [main, hA])
          | true =>
            cases wb with
            | true => simp [main, hA] at h
            | false => exact Or.inr ⟨rfl, rfl, by simp [main, hA]⟩
  · intro w doc out log hf hA how hwb
    obtain ⟨file, ow, wb⟩ := w
    simp only at hf how hwb
    subst hf
    subst how
    subst hwb
    simp [main, hA]

/-- Witness for the amended C8: a missing file leaves the world untouched,
and a clean run on `c6doc` replaces the file with `c6out`. -/
theorem main_preserves_file_before_write_witness :
    ((main ⟨none, true, true⟩).world = (⟨none, true, true⟩ : World) ∨
      ((⟨none, true, true⟩ : World).openWriteOk = true ∧
        (⟨none, true, true⟩ : World).writeBodyOk = false ∧
        (main ⟨none, true, true⟩).world.swaggerFile = some (.malformed ""))) ∧
    (main ⟨some (.parsed c6doc), true, true⟩).world.swaggerFile = some (.parsed c6out) :=
  ⟨main_preserves_file_before_write.1 ⟨none, true, true⟩ rfl,
   main_preserves_file_before_write.2 ⟨some (.parsed c6doc), true, true⟩ c6doc c6out
     ["Added examples to models.FolderRequest"] rfl rfl rfl rfl⟩

/-- Claim C9, counterexample: the document `true` has no definitions field at
all, hence vacuously satisfies "the definitions field, when present, is a
mapping of mappings", yet the injector raises a `TypeError`, contradicting
"raises no error" for every such document. -/
theorem add_errors_on_nonmapping_document :
    jGet (Json.bool true) "definitions" = none ∧
    add_swagger_examples (Json.bool true) = .error "TypeError: argument is not iterable" :=
  ⟨rfl, rfl⟩

/-- Claim C9, amended: for every document that is a JSON object whose
`definitions` entry, when present, is a mapping all of whose entries are
mappings, the injector raises no error. -/
theorem add_total_on_mapping_definitions :
    ∀ kvs : List (String × Json),
      (∀ dv, lookupKv kvs "definitions" = some dv →
        ∃ defs, dv = Json.obj defs ∧ ∀ p ∈ defs, isObj p.2 = true) →
      ∃ acc, add_swagger_examples (Json.obj kvs) = .ok acc := by
  intro kvs hyp
  cases hl : lookupKv kvs "definitions" with
  | none =>
    exact ⟨(Json.obj kvs, []), by simp [add_swagger_examples, pyContains, hasKey, hl]⟩
  | some dv =>
    obtain ⟨defs, rfl, hall⟩ := hyp dv hl
    obtain ⟨k1, d1, l1, hs1, hd1, ha1⟩ :=
      processModel_total_inv (Json.obj kvs, []) rfl hl hall
    obtain ⟨k2, d2, l2, hs2, hd2, ha2⟩ :=
      processModel_total_inv (Json.obj k1, l1) rfl hd1 ha1
    obtain ⟨k3, d3, l3, hs3, hd3, ha3⟩ :=
      processModel_total_inv (Json.obj k2, l2) rfl hd2 ha2
    refine ⟨(Json.obj k3, l3), ?_⟩
    unfold add_swagger_examples
    rw [show pyContains (Json.obj kvs) "definitions" = .ok true from by
      simp [pyContains, hasKey, hl]]
    exact runModels_cons_ok_intro hs1 (runModels_cons_ok_intro hs2
      (runModels_cons_ok_intro hs3 rfl))

/-- Witness for the amended C9 at an object document with one mapping
definition. -/
theorem add_total_on_mapping_definitions_witness :
    ∃ acc, add_swagger_examples (Json.obj [("definitions",
      Json.obj [("models.ProjectRequest", Json.obj [])])]) = .ok acc :=
  add_total_on_mapping_definitions
    [("definitions", Json.obj [("models.ProjectRequest", Json.obj [])])]
    (by
      intro dv h
      refine ⟨[("models.ProjectRequest", Json.obj [])], (Option.some.inj h).symm, ?_⟩
      intro p hp
      simp only [List.mem_singleton] at hp
      rw [hp]
      rfl)

/-- Claim C10: the injector leaves unchanged every top-level field other than
`definitions`, and within `definitions` every entry whose key is not one of
the three `models.`-prefixed targets. -/
theorem add_frame_outside_targets :
    ∀ doc out : Json, addExamplesDoc doc = .ok out →
      (∀ k, k ≠ "definitions" → jGet out k = jGet doc k) ∧
      (∀ K, K ≠ "models.BucketRequest" → K ≠ "models.ProjectRequest" →
        K ≠ "models.FolderRequest" → defsGet out K = defsGet doc K) := by
  intro doc out h
  obtain ⟨log, hA⟩ := addExamplesDoc_ok_elim h
  rcases add_ok_elim hA with ⟨-, rfl, -⟩ | ⟨-, hrun⟩
  · exact ⟨fun _ _ => rfl, fun _ _ _ _ => rfl⟩
  · rw [show model_examples = [("BucketRequest", bucketBasic, bucketAdvanced),
      ("ProjectRequest", projectBasic, projectAdvanced),
      ("FolderRequest", folderBasic, folderAdvanced)] from rfl] at hrun
    obtain ⟨a1, h1, hrun1⟩ := runModels_cons_ok hrun
    obtain ⟨a2, h2, hrun2⟩ := runModels_cons_ok hrun1
    obtain ⟨a3, h3, hrun3⟩ := runModels_cons_ok hrun2
    have ha3 : a3 = (out, log) := by simpa [runModels] using hrun3
    constructor
    · intro k hk
      have e3 := processModel_jGet_frame h3 k hk
      have e2 := processModel_jGet_frame h2 k hk
      have e1 := processModel_jGet_frame h1 k hk
      rw [ha3] at e3
      exact (e3.trans e2).trans e1
    · intro K hB hP hF
      have e3 := processModel_defsGet_frame h3 K hF
      have e2 := processModel_defsGet_frame h2 K hP
      have e1 := processModel_defsGet_frame h1 K hB
      rw [ha3] at e3
      exact (e3.trans e2).trans e1

/-- Witness for C10 at the concrete document `sampleDoc`: the `swagger`
field and the non-target definition `other.Thing` are untouched. -/
theorem add_frame_outside_targets_witness :
    jGet sampleOut "swagger" = jGet sampleDoc "swagger" ∧
    defsGet sampleOut "other.Thing" = defsGet sampleDoc "other.Thing" := by
  have h := add_frame_outside_targets sampleDoc sampleOut rfl
  exact ⟨h.1 "swagger" (by decide),
    h.2 "other.Thing" (by decide) (by decide) (by decide)⟩

end SwaggerInject
